import Mathlib

/-!
Shallow embedding of the lemon-sand simulation core (crate `lemon_sand_core`,
files `cell.rs`, `sandbox.rs`, `reactions.rs`).  Rust `f32` quantities are
modelled over `ℚ`: all arithmetic the engine performs on them here is
addition, subtraction, multiplication by constants, `min`/`max`/`clamp`,
`abs`, `floor` and comparisons, and every constant appearing in the source is
a small decimal, so the rational model decides every comparison the way the
float code does on the inputs considered.  `u8` counters are modelled as
naturals reduced modulo 256.

The four rational primitives below are restored to their default
`semireducible` transparency so that concrete engine runs can be settled by
kernel evaluation (`decide`); this changes nothing about their meaning.
-/

set_option allowUnsafeReducibility true

attribute [semireducible] Rat.add Rat.mul Rat.sub Rat.inv

namespace LemonSand

/-- The cell kinds of `cell.rs` (`CellType`): `Empty`, `Sand`, `Water`.
Note the reaction table in `reactions.rs` names a fourth kind `WetSand`
that is not declared in `cell.rs`. -/
inductive CellType where
  | Empty : CellType
  | Sand : CellType
  | Water : CellType
deriving DecidableEq, Repr

/-- The single property kind of `cell.rs` (`CellProperty::Moisture`). -/
inductive CellProperty where
  | Moisture : CellProperty
deriving DecidableEq, Repr

/-- The movement classes of `cell.rs` (`CellMovement`). -/
inductive CellMovement where
  | None : CellMovement
  | Powder : CellMovement
  | Liquid : CellMovement
  | Gas : CellMovement
deriving DecidableEq, Repr

/-- The cell value type of `cell.rs`.  The fields `type_`, `moisture` and
`last_updated` are declared in `cell.rs`; the velocity fields `vx`, `vy` are
used by `sandbox.rs` (`move_with_velocity`) but their declaration is not in
the provided `cell.rs`.  Modelled from the spec: the optional velocity
`(vx, vy)` of §3, defaulting to zero for a freshly made cell. -/
structure Cell where
  type_ : CellType
  moisture : ℚ
  last_updated : Nat
  vx : ℚ
  vy : ℚ
deriving DecidableEq, Repr

namespace Cell

/-- `Cell::default()` (`#[derive(Default)]`): `Empty` kind, zero fields. -/
def default : Cell := ⟨CellType.Empty, 0, 0, 0, 0⟩

/-- `Cell::new` from `cell.rs`: moisture starts at the kind's inherent
wetness. -/
def inherent_wetness : CellType → ℚ
  | CellType.Empty => 0
  | CellType.Sand => 0
  | CellType.Water => 1

def new (t : CellType) : Cell := ⟨t, inherent_wetness t, 0, 0, 0⟩

def get_type (c : Cell) : CellType := c.type_

/-- `Cell::movement` from `cell.rs`. -/
def movement (c : Cell) : CellMovement :=
  match c.get_type with
  | CellType.Empty => CellMovement.None
  | CellType.Sand => CellMovement.Powder
  | CellType.Water => CellMovement.Liquid

/-- `Cell::density` from `cell.rs` (`u8`). -/
def density (c : Cell) : Nat :=
  match c.get_type with
  | CellType.Empty => 0
  | CellType.Sand => 10
  | CellType.Water => 1

def get_property (c : Cell) : CellProperty → ℚ
  | CellProperty.Moisture => c.moisture

def set_property (c : Cell) (p : CellProperty) (v : ℚ) : Cell :=
  match p with
  | CellProperty.Moisture => { c with moisture := v }

/-- `Cell::property_capacity` from `cell.rs`. -/
def property_capacity (c : Cell) : CellProperty → ℚ
  | CellProperty.Moisture =>
    match c.get_type with
    | CellType.Empty => 0
    | CellType.Sand => 3 / 2
    | CellType.Water => 0

/-- `Cell::property_min_saturation` from `cell.rs`. -/
def property_min_saturation (c : Cell) : CellProperty → ℚ
  | CellProperty.Moisture =>
    match c.get_type with
    | CellType.Empty => 0
    | CellType.Sand => 1 / 2
    | CellType.Water => 0

/-- `Cell::property_diffusion_rate` from `cell.rs`. -/
def property_diffusion_rate (c : Cell) : CellProperty → ℚ
  | CellProperty.Moisture =>
    match c.get_type with
    | CellType.Empty => 0
    | CellType.Sand => 1 / 100
    | CellType.Water => 1

/-- `Cell::property_accept_rate` from `cell.rs`. -/
def property_accept_rate (c : Cell) : CellProperty → ℚ
  | CellProperty.Moisture =>
    match c.get_type with
    | CellType.Empty => 0
    | CellType.Sand => 1 / 20
    | CellType.Water => 0

/-- `Cell::property_diffuse_potential` from `cell.rs`: zero if the value is
zero, else the diffusion rate if the value exceeds it, else `self.moisture`
(which equals the value, `Moisture` being the only property). -/
def property_diffuse_potential (c : Cell) (p : CellProperty) : ℚ :=
  let value := c.get_property p
  if value = 0 then 0
  else
    let diffusion_rate := c.property_diffusion_rate p
    if value > diffusion_rate then diffusion_rate else c.moisture

/-- `Cell::property_accept_potential` from `cell.rs`. -/
def property_accept_potential (c : Cell) (p : CellProperty) : ℚ :=
  let value := c.get_property p
  let raw_potential := c.property_capacity p - value
  if raw_potential ≤ 0 then 0
  else
    let accept_rate := c.property_accept_rate p
    if raw_potential > accept_rate then accept_rate else raw_potential

/-- `Cell::is_pure_source` from `cell.rs`: only `Water` for `Moisture`. -/
def is_pure_source (c : Cell) : CellProperty → Bool
  | CellProperty.Moisture =>
    match c.get_type with
    | CellType.Water => true
    | _ => false

def is_empty (c : Cell) : Bool :=
  match c.get_type with
  | CellType.Empty => true
  | _ => false

def sand : Cell := new CellType.Sand

def water : Cell := new CellType.Water

/-- Modelled from the spec: `Cell::gravity_factor` is used by
`move_with_velocity` in `sandbox.rs` but is not declared in the provided
`cell.rs`.  The spec (§3, §4.3) says velocity "accumulates gravity each
tick, clamped to a maximum magnitude", i.e. the full gravity constant is
added per tick, so the factor is taken as `1` for every kind. -/
def gravity_factor (_c : Cell) : ℚ := 1

/-- Modelled from the spec: `Cell::slide_speed_factor`, the per-kind surface
friction factor of §4.3 ("apply a friction factor derived from the cell
directly below"), not declared in the provided `cell.rs`.  The spec gives no
numeric values; representative constants are chosen.  No theorem below
depends on these values (they only ever multiply a zero horizontal
velocity in the scenarios considered). -/
def slide_speed_factor (c : Cell) : ℚ :=
  match c.get_type with
  | CellType.Empty => 1
  | CellType.Sand => 1 / 2
  | CellType.Water => 9 / 10

/-- Modelled from the spec: `Cell::spread_impulse`, the lateral impulse of
§4.3 used when a blocked cell can slide sideways, not declared in the
provided `cell.rs`.  The spec gives no numeric values; liquids spread,
powders do not.  No theorem below depends on these values. -/
def spread_impulse (c : Cell) : ℚ :=
  match c.get_type with
  | CellType.Empty => 0
  | CellType.Sand => 0
  | CellType.Water => 1

end Cell

/-- A deterministic model of the `fastrand` draws the engine makes: a stream
of booleans (`fastrand::bool`) and a stream of list reorderings
(`fastrand::shuffle` on the eight diffusion candidates), each consumed by an
advancing index. -/
structure Rng where
  bools : Nat → Bool
  perms : Nat → List (Int × Int) → List (Int × Int)
  bi : Nat
  si : Nat

namespace Rng

def nextBool (r : Rng) : Bool × Rng :=
  (r.bools r.bi, { r with bi := r.bi + 1 })

def shuffle (r : Rng) (l : List (Int × Int)) : List (Int × Int) × Rng :=
  (r.perms r.si l, { r with si := r.si + 1 })

/-- A concrete generator: every boolean draw yields `false` and every
shuffle leaves the candidate list in place (the identity permutation). -/
def fixed : Rng := ⟨fun _ => false, fun _ l => l, 0, 0⟩

end Rng

/-- Rust `f32::clamp`. -/
def clampQ (v lo hi : ℚ) : ℚ := min (max v lo) hi

/-- Rust `f32::signum` cast to `isize` as used for the step direction:
`1` for positive values and positive zero, `-1` for negative values
(`ℚ` has no negative zero). -/
def sign_as_isize (q : ℚ) : Int := if q < 0 then -1 else 1

/-- The `Sandbox` struct of `sandbox.rs`: a flat row-major cell vector with
its dimensions, the gravity and velocity-cap constants, and the wrapping
`u8` tick counter (modelled as a natural kept below 256). -/
structure Sandbox where
  cells : List Cell
  width : Nat
  height : Nat
  gravity : ℚ
  max_velocity : ℚ
  update_counter : Nat
deriving Repr

namespace Sandbox

/-- `Sandbox::new`: an all-default (`Empty`) grid, gravity `0.3`, maximum
velocity `8.0`, counter `0`. -/
def new (width height : Nat) : Sandbox :=
  ⟨List.replicate (width * height) Cell.default, width, height, 3 / 10, 8, 0⟩

/-- `Sandbox::coords_to_index`: `None` out of range, else `y * width + x`. -/
def coords_to_index (s : Sandbox) (x y : Int) : Option Nat :=
  if x < 0 ∨ y < 0 ∨ (s.width : Int) ≤ x ∨ (s.height : Int) ≤ y then none
  else some (y * (s.width : Int) + x).toNat

/-- `Sandbox::get`: bounds-checked read. -/
def get (s : Sandbox) (x y : Int) : Option Cell :=
  (s.coords_to_index x y).map (fun i => s.cells.getD i Cell.default)

/-- The effect of a write through `Sandbox::get_mut`: apply `f` to the cell
at `(x, y)` when in range, otherwise leave the grid unchanged. -/
def modifyCell (s : Sandbox) (x y : Int) (f : Cell → Cell) : Sandbox :=
  match s.coords_to_index x y with
  | none => s
  | some i => { s with cells := s.cells.set i (f (s.cells.getD i Cell.default)) }

/-- `Sandbox::can_displace`: false for an out-of-range target, else strict
density comparison. -/
def can_displace (s : Sandbox) (cell : Cell) (tpos : Int × Int) : Bool :=
  match s.get tpos.1 tpos.2 with
  | none => false
  | some t => decide (t.density < cell.density)

/-- `Sandbox::swap_cells`: no-op if either coordinate is out of range, else
stamp both slots with the current counter and exchange their contents. -/
def swap_cells (s : Sandbox) (a b : Int × Int) : Sandbox :=
  match s.coords_to_index a.1 a.2 with
  | none => s
  | some i =>
    match s.coords_to_index b.1 b.2 with
    | none => s
    | some j =>
      let cs := s.cells
      let cs := cs.set i { cs.getD i Cell.default with last_updated := s.update_counter }
      let cs := cs.set j { cs.getD j Cell.default with last_updated := s.update_counter }
      let ci := cs.getD i Cell.default
      let cj := cs.getD j Cell.default
      { s with cells := (cs.set i cj).set j ci }

/-- `Sandbox::place`: bounds-checked external write, silently ignored out of
range. -/
def place (s : Sandbox) (x y : Int) (cell : Cell) : Sandbox :=
  match s.coords_to_index x y with
  | none => s
  | some i => { s with cells := s.cells.set i cell }

/-- `Sandbox::find_open_direction`: probe the two diagonal (or lateral, for
`dy = 0`) targets; a boolean draw breaks the tie when both are open. -/
def find_open_direction (s : Sandbox) (cell : Cell) (pos : Int × Int) (dy : Int)
    (r : Rng) : Option Int × Rng :=
  let left := s.can_displace cell (pos.1 - 1, pos.2 + dy)
  let right := s.can_displace cell (pos.1 + 1, pos.2 + dy)
  match left, right with
  | true, true =>
    let (b, r) := r.nextBool
    (some (if b then 1 else -1), r)
  | true, false => (some (-1), r)
  | false, true => (some 1, r)
  | false, false => (none, r)

/-- `Sandbox::push_slide_down`: convert blocked vertical speed into lateral
velocity on the mover copy (the grid itself is only read). -/
def push_slide_down (s : Sandbox) (cell : Cell) (pos : Int × Int) (vy_dir : Int)
    (r : Rng) : Cell × Rng :=
  match s.get pos.1 (pos.2 + vy_dir) with
  | none => (cell, r)
  | some blocker =>
    let slide := cell.slide_speed_factor * blocker.slide_speed_factor
    let transfer := |cell.vy| * slide
    match s.find_open_direction cell pos vy_dir r with
    | (some dir, r) => ({ cell with vx := cell.vx + transfer * (dir : ℚ) }, r)
    | (none, r) =>
      if cell.spread_impulse > 0 then
        match s.find_open_direction cell pos 0 r with
        | (some dir, r) =>
          ({ cell with vx := cell.vx + cell.spread_impulse * (dir : ℚ) }, r)
        | (none, r) => (cell, r)
      else (cell, r)

/-- `Sandbox::push_blocker_vertical`: impart impulse to a non-empty blocker,
with a random lateral component. -/
def push_blocker_vertical (s : Sandbox) (tpos : Int × Int) (impulse : ℚ)
    (r : Rng) : Sandbox × Rng :=
  match s.get tpos.1 tpos.2 with
  | none => (s, r)
  | some blocker =>
    if blocker.is_empty then (s, r)
    else
      let (b, r) := r.nextBool
      (s.modifyCell tpos.1 tpos.2 (fun c =>
        { c with vy := c.vy + impulse,
                 vx := c.vx + impulse * (1 / 5) * (if b then 1 else -1) }), r)

/-- `Sandbox::push_blocker_horizontal`. -/
def push_blocker_horizontal (s : Sandbox) (tpos : Int × Int) (impulse : ℚ) :
    Sandbox :=
  match s.get tpos.1 tpos.2 with
  | none => s
  | some blocker =>
    if blocker.is_empty then s
    else s.modifyCell tpos.1 tpos.2 (fun c => { c with vx := c.vx + impulse })

/-- The vertical stepping loop of `move_with_velocity`: up to `fuel`
(`⌊|vy|⌋`) single-cell steps along `vy_dir`, swapping through displaceable
slots; on the first blocker, slide, push the blocker, halve `vy`, and stop. -/
def vloop (s : Sandbox) (fuel : Nat) (vy_dir : Int) (cur : Int × Int)
    (cell : Cell) (r : Rng) : Sandbox × (Int × Int) × Cell × Rng :=
  match fuel with
  | 0 => (s, cur, cell, r)
  | Nat.succ n =>
    let next := (cur.1, cur.2 + vy_dir)
    if s.can_displace cell next then
      vloop (s.swap_cells cur next) n vy_dir next cell r
    else
      let (cell, r) := s.push_slide_down cell cur vy_dir r
      let (s, r) := s.push_blocker_vertical next (cell.vy * (1 / 2)) r
      (s, cur, { cell with vy := cell.vy * (1 / 2) }, r)

/-- The horizontal stepping loop of `move_with_velocity`.  Note the source
passes `current` (the mover's own slot), not the blocking slot, to
`push_blocker_horizontal`. -/
def hloop (s : Sandbox) (fuel : Nat) (vx_dir : Int) (cur : Int × Int)
    (cell : Cell) : Sandbox × (Int × Int) × Cell :=
  match fuel with
  | 0 => (s, cur, cell)
  | Nat.succ n =>
    let next := (cur.1 + vx_dir, cur.2)
    if s.can_displace cell next then
      hloop (s.swap_cells cur next) n vx_dir next cell
    else
      let s := s.push_blocker_horizontal cur (cell.vx * (1 / 2))
      (s, cur, { cell with vx := cell.vx * (1 / 2) })

/-- `Sandbox::move_with_velocity`, additionally reporting the mover's final
slot (the source's local `current`); the engine itself discards it. -/
def move_with_velocity (s : Sandbox) (x y : Int) (r : Rng) :
    Sandbox × (Int × Int) × Rng :=
  match s.get x y with
  | none => (s, (x, y), r)
  | some cell0 =>
    let cell := { cell0 with
      vy := clampQ (cell0.vy + s.gravity * cell0.gravity_factor)
              (-s.max_velocity) s.max_velocity }
    let vy_dir := sign_as_isize cell.vy
    let (s, cur, cell, r) := s.vloop (Int.toNat ⌊|cell.vy|⌋) vy_dir (x, y) cell r
    let vx_dir := sign_as_isize cell.vx
    let (s, cur, cell) := s.hloop (Int.toNat ⌊|cell.vx|⌋) vx_dir cur cell
    let surface_friction :=
      match s.get cur.1 (cur.2 + 1) with
      | some below => below.slide_speed_factor
      | none => 1 / 2
    let cell := { cell with vx := cell.vx * surface_friction }
    let s := s.modifyCell cur.1 cur.2 (fun c => { c with vx := cell.vx, vy := cell.vy })
    (s, cur, r)

/-- `Sandbox::update_movement`: dispatch on the movement class (`Gas` and
`None` do nothing), additionally reporting the mover's final slot. -/
def update_movement (s : Sandbox) (x y : Int) (r : Rng) :
    Sandbox × (Int × Int) × Rng :=
  match s.get x y with
  | none => (s, (x, y), r)
  | some cell =>
    match cell.movement with
    | CellMovement.None => (s, (x, y), r)
    | CellMovement.Powder => s.move_with_velocity x y r
    | CellMovement.Liquid => s.move_with_velocity x y r
    | CellMovement.Gas => (s, (x, y), r)

/-- `Sandbox::check_depletion`, additionally reporting whether the pure
source was replaced by an empty cell (`1`) or not (`0`). -/
def check_depletion (s : Sandbox) (x y : Int) (p : CellProperty) :
    Sandbox × Nat :=
  match s.get x y with
  | none => (s, 0)
  | some cell =>
    if cell.is_pure_source p && decide (cell.get_property p ≤ 1 / 20) then
      (s.place x y Cell.default, 1)
    else (s, 0)

/-- `Sandbox::try_spread_property`, additionally reporting the depletion
count (the source's boolean result is discarded by its only caller). -/
def try_spread_property (s : Sandbox) (x y : Int)
    (candidates : List (Int × Int)) (p : CellProperty) : Sandbox × Nat :=
  match s.get x y with
  | none => (s, 0)
  | some source =>
    let source_value := source.get_property p
    let source_is_pure := source.is_pure_source p
    match candidates.find? (fun c =>
      match s.get c.1 c.2 with
      | some t =>
        (!t.is_empty && source_is_pure) ||
          (decide (t.get_property p < source_value) &&
           decide (t.property_accept_potential p > 0))
      | none => false) with
    | none => (s, 0)
    | some tc =>
      match s.get tc.1 tc.2 with
      | none => (s, 0)
      | some target =>
        let diffuse := source.property_diffuse_potential p
        let accept := target.property_accept_potential p
        let transfer := min diffuse accept
        let s := s.modifyCell tc.1 tc.2
          (fun t => t.set_property p (t.get_property p + transfer))
        let s := s.modifyCell x y
          (fun c => c.set_property p (c.get_property p - transfer))
        s.check_depletion x y p

/-- `Sandbox::update_property`: skip empty or under-saturated sources, else
shuffle the eight neighbor candidates and spread once. -/
def update_property (s : Sandbox) (x y : Int) (p : CellProperty) (r : Rng) :
    Sandbox × Rng × Nat :=
  match s.get x y with
  | none => (s, r, 0)
  | some source =>
    if source.is_empty then (s, r, 0)
    else if source.get_property p < source.property_min_saturation p then
      (s, r, 0)
    else
      let candidates : List (Int × Int) :=
        [(x, y + 1), (x - 1, y + 1), (x + 1, y + 1), (x - 1, y),
         (x + 1, y), (x, y - 1), (x - 1, y - 1), (x + 1, y - 1)]
      let (shuffled, r) := r.shuffle candidates
      let (s, d) := s.try_spread_property x y shuffled p
      (s, r, d)

/-- `Sandbox::update_cell`: skip absent, empty, or already-stamped cells;
otherwise run property diffusion and then movement.  The third component
counts pure-source depletions. -/
def update_cell (s : Sandbox) (x y : Int) (r : Rng) : Sandbox × Rng × Nat :=
  match s.get x y with
  | none => (s, r, 0)
  | some cell =>
    if cell.is_empty || decide (cell.last_updated = s.update_counter) then
      (s, r, 0)
    else
      let (s, r, d) := s.update_property x y CellProperty.Moisture r
      let (s, _pos, r) := s.update_movement x y r
      (s, r, d)

/-- One iteration of the inner (column) loop of `Sandbox::update`. -/
def update_cell_step (y : Int) (acc : Sandbox × Rng × Nat) (x : Nat) :
    Sandbox × Rng × Nat :=
  let (s, r, d) := acc
  let (s', r', d') := s.update_cell (x : Int) y r
  (s', r', d + d')

/-- One iteration of the outer (row) loop of `Sandbox::update`: draw the
scan direction, then visit the row's cells in that order. -/
def update_row (w : Nat) (acc : Sandbox × Rng × Nat) (y : Nat) :
    Sandbox × Rng × Nat :=
  let (s, r, d) := acc
  let (scan_right, r) := r.nextBool
  let xs := if scan_right then List.range w else (List.range w).reverse
  xs.foldl (update_cell_step (y : Int)) (s, r, d)

/-- `Sandbox::update` instrumented with the depletion count: advance the
wrapping counter, then scan rows bottom-up, each row in a direction drawn
per row, visiting every cell once. -/
def updateD (s : Sandbox) (r : Rng) : Sandbox × Rng × Nat :=
  let w := s.width
  let h := s.height
  let s := { s with update_counter := (s.update_counter + 1) % 256 }
  (List.range h).reverse.foldl (update_row w) (s, r, 0)

/-- `Sandbox::update`: the engine entry point (the depletion count is
internal instrumentation). -/
def update (s : Sandbox) (r : Rng) : Sandbox × Rng :=
  ((s.updateD r).1, (s.updateD r).2.1)

/-- Modelled from the spec: the per-cell pipeline in the order §4.3 states
for the phases the engine has — movement first, then "property diffusion
phase (after movement settles, regardless of whether the cell moved)" at
the mover's settled slot.  Used only to compare the stated order against
the source's `update_cell`. -/
def update_cell_spec_order (s : Sandbox) (x y : Int) (r : Rng) :
    Sandbox × Rng × Nat :=
  match s.get x y with
  | none => (s, r, 0)
  | some cell =>
    if cell.is_empty || decide (cell.last_updated = s.update_counter) then
      (s, r, 0)
    else
      let (s, pos, r) := s.update_movement x y r
      let (s, r, d) := s.update_property pos.1 pos.2 CellProperty.Moisture r
      (s, r, d)

/-- The number of non-`Empty` cells in the grid. -/
def countNonEmpty (s : Sandbox) : Nat :=
  s.cells.countP (fun c => !c.is_empty)

/-- The grid-shape invariant every reachable sandbox satisfies: the flat
vector has exactly `width * height` slots. -/
def wf (s : Sandbox) : Prop :=
  s.cells.length = s.width * s.height

/-- Iterated engine ticks, for concrete scenarios. -/
def run_updates : Nat → Sandbox × Rng → Sandbox × Rng
  | 0, p => p
  | Nat.succ n, (s, r) => run_updates n (s.update r)

end Sandbox

/-- Within a tick the engine mutates only the cell vector: dimensions, the
physical constants and the counter stay fixed, and the vector keeps its
length. -/
def Frame (s t : Sandbox) : Prop :=
  t.width = s.width ∧ t.height = s.height ∧
    t.update_counter = s.update_counter ∧ t.cells.length = s.cells.length

section Helpers

open Sandbox

lemma getD_set_self {α} (l : List α) (i : Nat) (a d : α) (h : i < l.length) :
    (l.set i a).getD i d = a := by
  simp [List.getD_eq_getElem?_getD, List.getElem?_set_self, h]

lemma getD_set_ne {α} (l : List α) (i j : Nat) (a d : α) (h : i ≠ j) :
    (l.set i a).getD j d = l.getD j d := by
  simp [List.getD_eq_getElem?_getD, List.getElem?_set_ne h]

lemma getD_replicate {α} (n i : Nat) (a d : α) (h : i < n) :
    (List.replicate n a).getD i d = a := by
  simp [List.getD_eq_getElem?_getD, List.getElem?_replicate, h]

lemma countP_set_add {α} (p : α → Bool) (d : α) :
    ∀ (l : List α) (i : Nat) (a : α), i < l.length →
      (l.set i a).countP p + (if p (l.getD i d) then 1 else 0) =
        l.countP p + (if p a then 1 else 0) := by
  intro l
  induction l with
  | nil => intro i a h; simp at h
  | cons x xs ih =>
    intro i a h
    cases i with
    | zero =>
      simp only [List.set, List.countP_cons, List.getD_cons_zero]
      by_cases hpa : p a = true <;> by_cases hpx : p x = true <;>
        simp [hpa, hpx] <;> omega
    | succ n =>
      have hn : n < xs.length := by simpa using h
      have ih' := ih n a hn
      simp only [List.getD_eq_getElem?_getD] at ih' ⊢
      simp only [List.set, List.countP_cons, List.getD_cons_succ,
        List.getElem?_cons_succ]
      by_cases hpx : p x = true <;> simp [hpx] <;> omega

lemma countP_set_congr {α} (p : α → Bool) (d : α) (l : List α) (i : Nat) (a : α)
    (hp : p a = p (l.getD i d)) : (l.set i a).countP p = l.countP p := by
  by_cases h : i < l.length
  · have := countP_set_add p d l i a h
    rw [hp] at this
    omega
  · rw [List.set_eq_of_length_le (by omega)]

lemma coords_some (s : Sandbox) {x y : Int} {i : Nat}
    (h : s.coords_to_index x y = some i) :
    0 ≤ x ∧ 0 ≤ y ∧ x < (s.width : Int) ∧ y < (s.height : Int) ∧
      (i : Int) = y * (s.width : Int) + x := by
  unfold coords_to_index at h
  split at h
  · exact absurd h (by simp)
  · next hc =>
    push_neg at hc
    obtain ⟨hx0, hy0, hxw, hyh⟩ := hc
    refine ⟨hx0, hy0, hxw, hyh, ?_⟩
    have hnn : 0 ≤ y * (s.width : Int) + x :=
      add_nonneg (mul_nonneg hy0 (by positivity)) hx0
    simp only [Option.some_inj] at h
    rw [← h, Int.toNat_of_nonneg hnn]

lemma coords_lt (s : Sandbox) (hw : s.wf) {x y : Int} {i : Nat}
    (h : s.coords_to_index x y = some i) : i < s.cells.length := by
  obtain ⟨hx0, hy0, hxw, hyh, hi⟩ := coords_some s h
  have h1 : (i : Int) < (s.width : Int) * (s.height : Int) := by
    have hyh' : y ≤ (s.height : Int) - 1 := by omega
    have := mul_le_mul_of_nonneg_right hyh' (by positivity : (0:Int) ≤ (s.width : Int))
    rw [hi]
    nlinarith
  have h2 : i < s.width * s.height := by exact_mod_cast h1
  have h3 : s.cells.length = s.width * s.height := hw
  omega

lemma coords_inj (s : Sandbox) {x y u v : Int} {i : Nat}
    (h1 : s.coords_to_index x y = some i) (h2 : s.coords_to_index u v = some i) :
    x = u ∧ y = v := by
  obtain ⟨hx0, hy0, hxw, _, e1⟩ := coords_some s h1
  obtain ⟨hu0, hv0, huw, _, e2⟩ := coords_some s h2
  have hw0 : 0 < (s.width : Int) := lt_of_le_of_lt hx0 hxw
  have e : y * (s.width : Int) + x = v * (s.width : Int) + u := by rw [← e1, ← e2]
  have hx : (y * (s.width : Int) + x) % (s.width : Int) = x := by
    rw [add_comm, mul_comm, Int.add_mul_emod_self_left, Int.emod_eq_of_lt hx0 hxw]
  have hu : (v * (s.width : Int) + u) % (s.width : Int) = u := by
    rw [add_comm, mul_comm, Int.add_mul_emod_self_left, Int.emod_eq_of_lt hu0 huw]
  have hxu : x = u := by rw [← hx, ← hu, e]
  refine ⟨hxu, ?_⟩
  have : y * (s.width : Int) = v * (s.width : Int) := by omega
  exact mul_right_cancel₀ (by omega) this

lemma get_isSome (s : Sandbox) {x y : Int} {i : Nat}
    (h : s.coords_to_index x y = some i) :
    s.get x y = some (s.cells.getD i Cell.default) := by
  simp [Sandbox.get, h]

lemma coords_cells_irrel (s : Sandbox) (cs : List Cell) (x y : Int) :
    Sandbox.coords_to_index { s with cells := cs } x y = s.coords_to_index x y :=
  rfl

lemma modifyCell_eq_some (s : Sandbox) {x y : Int} {i : Nat} (f : Cell → Cell)
    (hc : s.coords_to_index x y = some i) :
    s.modifyCell x y f =
      { s with cells := s.cells.set i (f (s.cells.getD i Cell.default)) } := by
  unfold Sandbox.modifyCell
  rw [hc]

lemma get_modifyCell_self (s : Sandbox) {x y : Int} {c : Cell} (f : Cell → Cell)
    (hw : s.wf) (h : s.get x y = some c) :
    (s.modifyCell x y f).get x y = some (f c) := by
  unfold Sandbox.get at h
  cases hc : s.coords_to_index x y with
  | none => rw [hc] at h; simp at h
  | some i =>
    rw [hc] at h
    simp only [Option.map] at h
    have hcell : s.cells.getD i Cell.default = c := Option.some_inj.mp h
    have hlen : i < s.cells.length := coords_lt s hw hc
    rw [modifyCell_eq_some s f hc]
    unfold Sandbox.get
    rw [coords_cells_irrel, hc]
    simp only [Option.map, Option.some_inj]
    rw [getD_set_self _ _ _ _ hlen, hcell]

lemma get_modifyCell_ne (s : Sandbox) {x y u v : Int} (f : Cell → Cell)
    (hne : (u, v) ≠ (x, y)) :
    (s.modifyCell x y f).get u v = s.get u v := by
  unfold Sandbox.modifyCell
  cases hc : s.coords_to_index x y with
  | none => rfl
  | some i =>
    unfold Sandbox.get
    have hcsame : ∀ cs, Sandbox.coords_to_index { s with cells := cs } u v =
        s.coords_to_index u v := by intro cs; rfl
    rw [hcsame]
    cases hcu : s.coords_to_index u v with
    | none => rfl
    | some j =>
      simp only [Option.map]
      have hij : i ≠ j := by
        intro hij
        subst hij
        obtain ⟨hx, hy⟩ := coords_inj s hc hcu
        exact hne (by simp [hx, hy])
      rw [getD_set_ne _ _ _ _ _ hij]

lemma get_place_self (s : Sandbox) {x y : Int} {c0 : Cell} (c : Cell)
    (hw : s.wf) (h : s.get x y = some c0) :
    (s.place x y c).get x y = some c := by
  unfold Sandbox.get at h
  cases hc : s.coords_to_index x y with
  | none => rw [hc] at h; simp at h
  | some i =>
    have hlen : i < s.cells.length := coords_lt s hw hc
    unfold Sandbox.place
    rw [hc]
    unfold Sandbox.get
    rw [coords_cells_irrel, hc]
    simp only [Option.map, Option.some_inj]
    exact getD_set_self _ _ _ _ hlen

lemma get_place_ne (s : Sandbox) {x y u v : Int} (c : Cell)
    (hne : (u, v) ≠ (x, y)) :
    (s.place x y c).get u v = s.get u v := by
  unfold Sandbox.place
  cases hc : s.coords_to_index x y with
  | none => rfl
  | some i =>
    unfold Sandbox.get
    rw [coords_cells_irrel]
    cases hcu : s.coords_to_index u v with
    | none => rfl
    | some j =>
      simp only [Option.map]
      have hij : i ≠ j := by
        intro hij
        subst hij
        obtain ⟨hx, hy⟩ := coords_inj s hc hcu
        exact hne (by simp [hx, hy])
      rw [getD_set_ne _ _ _ _ _ hij]

lemma wf_modifyCell (s : Sandbox) (x y : Int) (f : Cell → Cell) (hw : s.wf) :
    (s.modifyCell x y f).wf := by
  unfold Sandbox.modifyCell
  cases hc : s.coords_to_index x y with
  | none => exact hw
  | some i => simpa [Sandbox.wf] using hw

lemma wf_place (s : Sandbox) (x y : Int) (c : Cell) (hw : s.wf) :
    (s.place x y c).wf := by
  unfold Sandbox.place
  cases hc : s.coords_to_index x y with
  | none => exact hw
  | some i => simpa [Sandbox.wf] using hw

lemma wf_new (w h : Nat) : (Sandbox.new w h).wf := by
  simp [Sandbox.wf, Sandbox.new]

lemma property_capacity_nonneg (c : Cell) (p : CellProperty) :
    0 ≤ c.property_capacity p := by
  obtain ⟨t, m, lu, vx, vy⟩ := c
  cases p
  cases t <;> norm_num [Cell.property_capacity, Cell.get_type]

lemma property_accept_rate_nonneg (c : Cell) (p : CellProperty) :
    0 ≤ c.property_accept_rate p := by
  obtain ⟨t, m, lu, vx, vy⟩ := c
  cases p
  cases t <;> norm_num [Cell.property_accept_rate, Cell.get_type]

lemma property_diffusion_rate_nonneg (c : Cell) (p : CellProperty) :
    0 ≤ c.property_diffusion_rate p := by
  obtain ⟨t, m, lu, vx, vy⟩ := c
  cases p
  cases t <;> norm_num [Cell.property_diffusion_rate, Cell.get_type]

lemma accept_potential_nonneg (c : Cell) (p : CellProperty) :
    0 ≤ c.property_accept_potential p := by
  have hr := property_accept_rate_nonneg c p
  simp only [Cell.property_accept_potential]
  split_ifs with h1 h2 <;> linarith

lemma add_accept_le_cap (c : Cell) (p : CellProperty)
    (h : c.get_property p ≤ c.property_capacity p) :
    c.get_property p + c.property_accept_potential p ≤ c.property_capacity p := by
  simp only [Cell.property_accept_potential]
  split_ifs with h1 h2 <;> linarith

lemma diffuse_le_value (c : Cell) (p : CellProperty)
    (h : 0 ≤ c.get_property p) :
    c.property_diffuse_potential p ≤ c.get_property p := by
  cases p
  simp only [Cell.property_diffuse_potential]
  split_ifs with h1 h2
  · linarith
  · linarith
  · exact le_refl _

lemma diffuse_nonneg (c : Cell) (p : CellProperty)
    (h : 0 ≤ c.get_property p) :
    0 ≤ c.property_diffuse_potential p := by
  cases p
  have hr := property_diffusion_rate_nonneg c CellProperty.Moisture
  simp only [Cell.property_diffuse_potential]
  split_ifs with h1 h2
  · exact le_refl 0
  · exact hr
  · exact h

lemma diffuse_eq_value_of_neg (c : Cell) (p : CellProperty)
    (h : c.get_property p < 0) :
    c.property_diffuse_potential p = c.get_property p := by
  cases p
  have hr := property_diffusion_rate_nonneg c CellProperty.Moisture
  simp only [Cell.property_diffuse_potential]
  split_ifs with h1 h2
  · linarith
  · linarith
  · rfl

lemma set_property_is_empty (c : Cell) (p : CellProperty) (v : ℚ) :
    (c.set_property p v).is_empty = c.is_empty := by
  cases p
  rfl

lemma set_property_get (c : Cell) (p : CellProperty) (v : ℚ) :
    (c.set_property p v).get_property p = v := by
  cases p
  rfl

lemma set_property_capacity (c : Cell) (p : CellProperty) (v : ℚ) :
    (c.set_property p v).property_capacity p = c.property_capacity p := by
  cases p
  rfl

lemma default_get_property (p : CellProperty) :
    Cell.default.get_property p = 0 := by
  cases p
  rfl

lemma check_depletion_cases (s : Sandbox) (x y : Int) (p : CellProperty) :
    (s.check_depletion x y p).1 = s ∨
      (s.check_depletion x y p).1 = s.place x y Cell.default := by
  unfold Sandbox.check_depletion
  cases hg : s.get x y with
  | none => left; rfl
  | some cell =>
    dsimp only
    by_cases hc : (cell.is_pure_source p && decide (cell.get_property p ≤ 1 / 20)) = true
    · right; rw [if_pos hc]
    · left; rw [if_neg hc]

lemma try_spread_cases (s : Sandbox) (x y : Int) (cands : List (Int × Int))
    (p : CellProperty) :
    s.try_spread_property x y cands p = (s, 0) ∨
      ∃ (source : Cell) (tc : Int × Int) (target : Cell),
        s.get x y = some source ∧ s.get tc.1 tc.2 = some target ∧
        s.try_spread_property x y cands p =
          ((s.modifyCell tc.1 tc.2 (fun t => t.set_property p
              (t.get_property p + min (source.property_diffuse_potential p)
                (target.property_accept_potential p)))).modifyCell x y
            (fun c => c.set_property p
              (c.get_property p - min (source.property_diffuse_potential p)
                (target.property_accept_potential p)))).check_depletion x y p := by
  unfold Sandbox.try_spread_property
  cases hsrc : s.get x y with
  | none => left; rfl
  | some source =>
    dsimp only
    split
    · left; rfl
    · rename_i tc hfind
      split
      · left; rfl
      · rename_i target htgt
        right
        exact ⟨source, tc, target, rfl, htgt, rfl⟩

lemma frame_refl (s : Sandbox) : Frame s s := ⟨rfl, rfl, rfl, rfl⟩

lemma frame_trans {s t u : Sandbox} (h1 : Frame s t) (h2 : Frame t u) :
    Frame s u :=
  ⟨h2.1.trans h1.1, h2.2.1.trans h1.2.1, h2.2.2.1.trans h1.2.2.1,
   h2.2.2.2.trans h1.2.2.2⟩

lemma wf_of_frame {s t : Sandbox} (hw : s.wf) (h : Frame s t) : t.wf := by
  obtain ⟨h1, h2, h3, h4⟩ := h
  unfold Sandbox.wf at hw ⊢
  rw [h4, h1, h2]
  exact hw

lemma frame_modifyCell (s : Sandbox) (x y : Int) (f : Cell → Cell) :
    Frame s (s.modifyCell x y f) := by
  unfold Sandbox.modifyCell
  cases hc : s.coords_to_index x y with
  | none => exact frame_refl s
  | some i => exact ⟨rfl, rfl, rfl, List.length_set ..⟩

lemma frame_place (s : Sandbox) (x y : Int) (c : Cell) :
    Frame s (s.place x y c) := by
  unfold Sandbox.place
  cases hc : s.coords_to_index x y with
  | none => exact frame_refl s
  | some i => exact ⟨rfl, rfl, rfl, List.length_set ..⟩

lemma frame_swap (s : Sandbox) (a b : Int × Int) :
    Frame s (s.swap_cells a b) := by
  unfold Sandbox.swap_cells
  cases hi : s.coords_to_index a.1 a.2 with
  | none => exact frame_refl s
  | some i =>
    cases hj : s.coords_to_index b.1 b.2 with
    | none => exact frame_refl s
    | some j =>
      dsimp only
      exact ⟨rfl, rfl, rfl, by simp only [List.length_set]⟩

lemma frame_check_depletion (s : Sandbox) (x y : Int) (p : CellProperty) :
    Frame s (s.check_depletion x y p).1 := by
  rcases check_depletion_cases s x y p with h | h
  · rw [h]; exact frame_refl s
  · rw [h]; exact frame_place ..

lemma frame_try_spread (s : Sandbox) (x y : Int) (cands : List (Int × Int))
    (p : CellProperty) : Frame s (s.try_spread_property x y cands p).1 := by
  rcases try_spread_cases s x y cands p with h | ⟨source, tc, target, _, _, h⟩
  · rw [h]; exact frame_refl s
  · rw [h]
    exact frame_trans
      (frame_trans (frame_modifyCell ..) (frame_modifyCell ..))
      (frame_check_depletion ..)

lemma frame_update_property (s : Sandbox) (x y : Int) (p : CellProperty)
    (r : Rng) : Frame s (s.update_property x y p r).1 := by
  unfold Sandbox.update_property
  cases hg : s.get x y with
  | none => exact frame_refl s
  | some source =>
    dsimp only
    split
    · exact frame_refl s
    · split
      · exact frame_refl s
      · exact frame_try_spread ..

lemma frame_push_blocker_vertical (s : Sandbox) (tpos : Int × Int)
    (imp : ℚ) (r : Rng) : Frame s (s.push_blocker_vertical tpos imp r).1 := by
  unfold Sandbox.push_blocker_vertical
  cases hg : s.get tpos.1 tpos.2 with
  | none => exact frame_refl s
  | some blocker =>
    dsimp only
    split
    · exact frame_refl s
    · exact frame_modifyCell ..

lemma frame_push_blocker_horizontal (s : Sandbox) (tpos : Int × Int)
    (imp : ℚ) : Frame s (s.push_blocker_horizontal tpos imp) := by
  unfold Sandbox.push_blocker_horizontal
  cases hg : s.get tpos.1 tpos.2 with
  | none => exact frame_refl s
  | some blocker =>
    dsimp only
    split
    · exact frame_refl s
    · exact frame_modifyCell ..

lemma frame_vloop (n : Nat) : ∀ (s : Sandbox) (vd : Int) (cur : Int × Int)
    (cell : Cell) (r : Rng), Frame s (s.vloop n vd cur cell r).1 := by
  induction n with
  | zero => intro s vd cur cell r; exact frame_refl s
  | succ m ih =>
    intro s vd cur cell r
    unfold Sandbox.vloop
    dsimp only
    split
    · exact frame_trans (frame_swap ..) (ih ..)
    · exact frame_push_blocker_vertical ..

lemma frame_hloop (n : Nat) : ∀ (s : Sandbox) (vd : Int) (cur : Int × Int)
    (cell : Cell), Frame s (s.hloop n vd cur cell).1 := by
  induction n with
  | zero => intro s vd cur cell; exact frame_refl s
  | succ m ih =>
    intro s vd cur cell
    unfold Sandbox.hloop
    dsimp only
    split
    · exact frame_trans (frame_swap ..) (ih ..)
    · exact frame_push_blocker_horizontal ..

lemma frame_move_with_velocity (s : Sandbox) (x y : Int) (r : Rng) :
    Frame s (s.move_with_velocity x y r).1 := by
  unfold Sandbox.move_with_velocity
  cases hg : s.get x y with
  | none => exact frame_refl s
  | some cell0 =>
    dsimp only
    exact frame_trans
      (frame_trans (frame_vloop _ s _ (x, y) _ r) (frame_hloop _ _ _ _ _))
      (frame_modifyCell ..)

lemma frame_update_movement (s : Sandbox) (x y : Int) (r : Rng) :
    Frame s (s.update_movement x y r).1 := by
  unfold Sandbox.update_movement
  cases hg : s.get x y with
  | none => exact frame_refl s
  | some cell =>
    dsimp only
    cases cell.movement with
    | None => exact frame_refl s
    | Powder => exact frame_move_with_velocity ..
    | Liquid => exact frame_move_with_velocity ..
    | Gas => exact frame_refl s

lemma frame_update_cell (s : Sandbox) (x y : Int) (r : Rng) :
    Frame s (s.update_cell x y r).1 := by
  unfold Sandbox.update_cell
  cases hg : s.get x y with
  | none => exact frame_refl s
  | some cell =>
    dsimp only
    split
    · exact frame_refl s
    · exact frame_trans (frame_update_property s x y CellProperty.Moisture r)
        (frame_update_movement ..)

lemma frame_foldl {α} (step : (Sandbox × Rng × Nat) → α → Sandbox × Rng × Nat)
    (hstep : ∀ acc x, Frame acc.1 (step acc x).1) :
    ∀ (l : List α) (acc : Sandbox × Rng × Nat),
      Frame acc.1 (l.foldl step acc).1 := by
  intro l
  induction l with
  | nil => intro acc; exact frame_refl acc.1
  | cons x xs ih =>
    intro acc
    exact frame_trans (hstep acc x) (ih (step acc x))

lemma frame_update_cell_step (y : Int) (acc : Sandbox × Rng × Nat) (x : Nat) :
    Frame acc.1 (update_cell_step y acc x).1 := by
  obtain ⟨s, r, d⟩ := acc
  unfold Sandbox.update_cell_step
  dsimp only
  exact frame_update_cell ..

lemma frame_update_row (w : Nat) (acc : Sandbox × Rng × Nat) (y : Nat) :
    Frame acc.1 (update_row w acc y).1 := by
  obtain ⟨s, r, d⟩ := acc
  unfold Sandbox.update_row
  dsimp only [Rng.nextBool]
  exact frame_foldl _ (frame_update_cell_step (y : Int)) _ _

lemma frame_updateD (s : Sandbox) (r : Rng) :
    Frame { s with update_counter := (s.update_counter + 1) % 256 }
      (s.updateD r).1 := by
  unfold Sandbox.updateD
  dsimp only
  exact frame_foldl _ (frame_update_row s.width) _ _

lemma count_modifyCell (s : Sandbox) (x y : Int) (f : Cell → Cell)
    (hf : ∀ c, (f c).is_empty = c.is_empty) :
    (s.modifyCell x y f).countNonEmpty = s.countNonEmpty := by
  unfold Sandbox.modifyCell
  cases hc : s.coords_to_index x y with
  | none => rfl
  | some i =>
    unfold Sandbox.countNonEmpty
    dsimp only
    exact countP_set_congr _ Cell.default _ i _ (by rw [hf])

lemma count_swap_chain (l : List Cell) (i j n : Nat)
    (hil : i < l.length) (hjl : j < l.length) :
    (let A := { l.getD i Cell.default with last_updated := n }
     let l1 := l.set i A
     let B := { l1.getD j Cell.default with last_updated := n }
     let l2 := l1.set j B
     ((l2.set i (l2.getD j Cell.default)).set j
        (l2.getD i Cell.default)).countP (fun c => !c.is_empty)) =
      l.countP (fun c => !c.is_empty) := by
  dsimp only
  set p : Cell → Bool := fun c => !c.is_empty with hp
  set A := { l.getD i Cell.default with last_updated := n } with hA
  set l1 := l.set i A with hl1
  set B := { l1.getD j Cell.default with last_updated := n } with hB
  set l2 := l1.set j B with hl2
  have hl1len : l1.length = l.length := List.length_set ..
  have hl2len : l2.length = l.length := by
    rw [hl2, List.length_set, hl1len]
  have h1 : l1.countP p = l.countP p :=
    countP_set_congr p Cell.default l i A rfl
  have h2 : l2.countP p = l.countP p :=
    (countP_set_congr p Cell.default l1 j B rfl).trans h1
  by_cases hij : i = j
  · subst hij
    rw [List.set_set]
    exact (countP_set_congr p Cell.default l2 i _ rfl).trans h2
  · have e1 := countP_set_add p Cell.default l2 i (l2.getD j Cell.default)
      (by rw [hl2len]; exact hil)
    have e2 := countP_set_add p Cell.default (l2.set i (l2.getD j Cell.default))
      j (l2.getD i Cell.default)
      (by rw [List.length_set, hl2len]; exact hjl)
    rw [getD_set_ne _ _ _ _ _ hij] at e2
    rw [h2] at e1
    by_cases hpi : p (l2.getD i Cell.default) = true <;>
      by_cases hpj : p (l2.getD j Cell.default) = true <;>
        simp only [hpi, hpj, if_true, if_false] at e1 e2 <;>
          omega

lemma count_swap (s : Sandbox) (a b : Int × Int) (hw : s.wf) :
    (s.swap_cells a b).countNonEmpty = s.countNonEmpty := by
  unfold Sandbox.swap_cells
  cases hi : s.coords_to_index a.1 a.2 with
  | none => rfl
  | some i =>
    cases hj : s.coords_to_index b.1 b.2 with
    | none => rfl
    | some j =>
      unfold Sandbox.countNonEmpty
      dsimp only
      exact count_swap_chain s.cells i j s.update_counter
        (coords_lt s hw hi) (coords_lt s hw hj)

lemma count_place_default (s : Sandbox) (x y : Int) :
    (s.place x y Cell.default).countNonEmpty ≤ s.countNonEmpty := by
  unfold Sandbox.place
  cases hc : s.coords_to_index x y with
  | none => exact le_refl _
  | some i =>
    unfold Sandbox.countNonEmpty
    dsimp only
    by_cases hl : i < s.cells.length
    · have hadd := countP_set_add (fun c => !c.is_empty) Cell.default
        s.cells i Cell.default hl
      have hpd : (fun c => !c.is_empty) Cell.default = false := rfl
      rw [hpd] at hadd
      simp only [Bool.false_eq_true, if_false] at hadd
      omega
    · rw [List.set_eq_of_length_le (by omega)]

lemma check_depletion_zero (s : Sandbox) (x y : Int) (p : CellProperty)
    (h : (s.check_depletion x y p).2 = 0) :
    (s.check_depletion x y p).1 = s := by
  unfold Sandbox.check_depletion at h ⊢
  cases hg : s.get x y with
  | none => rfl
  | some cell =>
    rw [hg] at h
    dsimp only at h ⊢
    split at h
    · simp at h
    · rename_i hcond
      rw [if_neg hcond]

lemma count_try_spread (s : Sandbox) (x y : Int) (cands : List (Int × Int))
    (p : CellProperty) (hd : (s.try_spread_property x y cands p).2 = 0) :
    (s.try_spread_property x y cands p).1.countNonEmpty = s.countNonEmpty := by
  rcases try_spread_cases s x y cands p with h | ⟨source, tc, target, _, _, h⟩
  · rw [h]
  · rw [h] at hd ⊢
    rw [check_depletion_zero _ _ _ _ hd]
    rw [count_modifyCell]
    · rw [count_modifyCell]
      · intro c
        exact set_property_is_empty c p _
    · intro c
      exact set_property_is_empty c p _

lemma count_update_property (s : Sandbox) (x y : Int) (p : CellProperty)
    (r : Rng) (hd : (s.update_property x y p r).2.2 = 0) :
    (s.update_property x y p r).1.countNonEmpty = s.countNonEmpty := by
  unfold Sandbox.update_property at hd ⊢
  cases hg : s.get x y with
  | none => rfl
  | some source =>
    rw [hg] at hd
    dsimp only at hd ⊢
    split at hd
    · rename_i hc
      rw [if_pos hc]
    · rename_i hc
      rw [if_neg hc]
      split at hd
      · rename_i hc2
        rw [if_pos hc2]
      · rename_i hc2
        rw [if_neg hc2]
        exact count_try_spread _ _ _ _ _ hd

lemma count_push_blocker_vertical (s : Sandbox) (tpos : Int × Int)
    (imp : ℚ) (r : Rng) :
    (s.push_blocker_vertical tpos imp r).1.countNonEmpty = s.countNonEmpty := by
  unfold Sandbox.push_blocker_vertical
  cases hg : s.get tpos.1 tpos.2 with
  | none => rfl
  | some blocker =>
    dsimp only
    split
    · rfl
    · exact count_modifyCell _ _ _ _ (fun c => rfl)

lemma count_push_blocker_horizontal (s : Sandbox) (tpos : Int × Int)
    (imp : ℚ) :
    (s.push_blocker_horizontal tpos imp).countNonEmpty = s.countNonEmpty := by
  unfold Sandbox.push_blocker_horizontal
  cases hg : s.get tpos.1 tpos.2 with
  | none => rfl
  | some blocker =>
    dsimp only
    split
    · rfl
    · exact count_modifyCell _ _ _ _ (fun c => rfl)

lemma count_vloop (n : Nat) : ∀ (s : Sandbox) (vd : Int) (cur : Int × Int)
    (cell : Cell) (r : Rng), s.wf →
    (s.vloop n vd cur cell r).1.countNonEmpty = s.countNonEmpty := by
  induction n with
  | zero => intro s vd cur cell r _; rfl
  | succ m ih =>
    intro s vd cur cell r hw
    unfold Sandbox.vloop
    dsimp only
    split
    · refine (ih _ _ _ _ _ ?_).trans (count_swap _ _ _ hw)
      exact wf_of_frame hw (frame_swap ..)
    · exact count_push_blocker_vertical ..

lemma count_hloop (n : Nat) : ∀ (s : Sandbox) (vd : Int) (cur : Int × Int)
    (cell : Cell), s.wf →
    (s.hloop n vd cur cell).1.countNonEmpty = s.countNonEmpty := by
  induction n with
  | zero => intro s vd cur cell _; rfl
  | succ m ih =>
    intro s vd cur cell hw
    unfold Sandbox.hloop
    dsimp only
    split
    · refine (ih _ _ _ _ ?_).trans (count_swap _ _ _ hw)
      exact wf_of_frame hw (frame_swap ..)
    · exact count_push_blocker_horizontal ..

lemma count_move_with_velocity (s : Sandbox) (x y : Int) (r : Rng)
    (hw : s.wf) :
    (s.move_with_velocity x y r).1.countNonEmpty = s.countNonEmpty := by
  unfold Sandbox.move_with_velocity
  cases hg : s.get x y with
  | none => rfl
  | some cell0 =>
    dsimp only
    rw [count_modifyCell]
    · rw [count_hloop]
      · exact count_vloop _ _ _ _ _ _ hw
      · exact wf_of_frame hw (frame_vloop ..)
    · intro c
      rfl

lemma count_update_movement (s : Sandbox) (x y : Int) (r : Rng) (hw : s.wf) :
    (s.update_movement x y r).1.countNonEmpty = s.countNonEmpty := by
  unfold Sandbox.update_movement
  cases hg : s.get x y with
  | none => rfl
  | some cell =>
    dsimp only
    cases cell.movement with
    | None => rfl
    | Powder => exact count_move_with_velocity _ _ _ _ hw
    | Liquid => exact count_move_with_velocity _ _ _ _ hw
    | Gas => rfl

lemma count_update_cell (s : Sandbox) (x y : Int) (r : Rng) (hw : s.wf)
    (hd : (s.update_cell x y r).2.2 = 0) :
    (s.update_cell x y r).1.countNonEmpty = s.countNonEmpty := by
  unfold Sandbox.update_cell at hd ⊢
  cases hg : s.get x y with
  | none => rfl
  | some cell =>
    rw [hg] at hd
    dsimp only at hd ⊢
    split at hd
    · rename_i hc
      rw [if_pos hc]
    · rename_i hc
      rw [if_neg hc]
      dsimp only
      have hw1 : (s.update_property x y CellProperty.Moisture r).1.wf :=
        wf_of_frame hw (frame_update_property ..)
      exact (count_update_movement _ _ _ _ hw1).trans
        (count_update_property _ _ _ _ _ hd)

lemma count_foldl {α} (step : (Sandbox × Rng × Nat) → α → Sandbox × Rng × Nat)
    (hframe : ∀ acc x, Frame acc.1 (step acc x).1)
    (hstep : ∀ acc x, acc.1.wf →
      acc.2.2 ≤ (step acc x).2.2 ∧
      ((step acc x).2.2 = acc.2.2 →
        (step acc x).1.countNonEmpty = acc.1.countNonEmpty)) :
    ∀ (l : List α) (acc : Sandbox × Rng × Nat), acc.1.wf →
      acc.2.2 ≤ (l.foldl step acc).2.2 ∧
      ((l.foldl step acc).2.2 = acc.2.2 →
        (l.foldl step acc).1.countNonEmpty = acc.1.countNonEmpty) := by
  intro l
  induction l with
  | nil => intro acc _; exact ⟨le_refl _, fun _ => rfl⟩
  | cons x xs ih =>
    intro acc hw
    have hw1 : (step acc x).1.wf := wf_of_frame hw (hframe acc x)
    obtain ⟨hm0, hc0⟩ := hstep acc x hw
    obtain ⟨hm, hc⟩ := ih (step acc x) hw1
    refine ⟨le_trans hm0 hm, ?_⟩
    intro he
    simp only [List.foldl_cons] at he
    have h1 : (step acc x).2.2 = acc.2.2 := by omega
    have h2 : (xs.foldl step (step acc x)).2.2 = (step acc x).2.2 := by omega
    simp only [List.foldl_cons]
    exact (hc h2).trans (hc0 h1)

lemma step_props_update_cell_step (y : Int) (acc : Sandbox × Rng × Nat)
    (x : Nat) (hw : acc.1.wf) :
    acc.2.2 ≤ (update_cell_step y acc x).2.2 ∧
      ((update_cell_step y acc x).2.2 = acc.2.2 →
        (update_cell_step y acc x).1.countNonEmpty = acc.1.countNonEmpty) := by
  obtain ⟨s, r, d⟩ := acc
  unfold Sandbox.update_cell_step
  dsimp only at hw ⊢
  refine ⟨Nat.le_add_right .., ?_⟩
  intro he
  have h0 : d + (s.update_cell (x : Int) y r).2.2 = d := he
  exact count_update_cell s (x : Int) y r hw (by omega)

lemma step_props_update_row (w : Nat) (acc : Sandbox × Rng × Nat) (y : Nat)
    (hw : acc.1.wf) :
    acc.2.2 ≤ (update_row w acc y).2.2 ∧
      ((update_row w acc y).2.2 = acc.2.2 →
        (update_row w acc y).1.countNonEmpty = acc.1.countNonEmpty) := by
  obtain ⟨s, r, d⟩ := acc
  unfold Sandbox.update_row
  dsimp only at hw ⊢
  refine count_foldl (update_cell_step (y : Int))
    (frame_update_cell_step (y : Int))
    (step_props_update_cell_step (y : Int))
    (if r.nextBool.1 = true then List.range w else (List.range w).reverse)
    (s, r.nextBool.2, d) ?_
  exact hw

end Helpers

/-- C1: the engine has no reaction phase.  On the spec's own scenario — a
3-by-3 grid with Sand at (1,0) directly above Water at (1,1) — the
probability-1.0, unconditioned Sand/Water rule declared in `reactions.rs`
would replace the pair by WetSand/Empty on the first tick, but
`update_cell` never consults the reaction table (which even names a
`CellType::WetSand` that `cell.rs` does not declare), so after one
`update` both cells still hold their original kinds. -/
theorem claim_C1_no_reaction_phase :
    ((((((Sandbox.new 3 3).place 1 0 Cell.sand).place 1 1
          Cell.water).update Rng.fixed).1.get 1 0).map Cell.get_type =
       some CellType.Sand) ∧
    ((((((Sandbox.new 3 3).place 1 0 Cell.sand).place 1 1
          Cell.water).update Rng.fixed).1.get 1 1).map Cell.get_type =
       some CellType.Water) := by
  decide

/-- C2 counterexample: under the velocity movement model (gravity 0.3 per
tick), a single Sand cell above an empty column of height 1 has not reached
the bottom after one `update` — it has not moved at all, because its
accumulated velocity 0.3 floors to zero whole-cell steps. -/
theorem claim_C2_counterexample :
    let s := (Sandbox.new 1 2).place 0 0 Cell.sand
    (((s.update Rng.fixed).1.get 0 1).map Cell.get_type ≠
       some CellType.Sand) ∧
    (((s.update Rng.fixed).1.get 0 0).map Cell.get_type =
       some CellType.Sand) ∧
    (((s.update Rng.fixed).1.get 0 1).map Cell.get_type =
       some CellType.Empty) := by
  decide

/-- C2 (amended): the velocity model accumulates gravity 0.3 into `vy` each
tick and moves `⌊vy⌋` whole cells.  A single Powder cell above an empty
column stays put for the first three updates, first descends one cell on
the fourth, and over an empty column of height 4 reaches the bottom cell
only on the seventh update, not the fourth. -/
theorem claim_C2_velocity_settling :
    (((Sandbox.run_updates 3 ((Sandbox.new 1 5).place 0 0 Cell.sand,
        Rng.fixed)).1.get 0 0).map Cell.get_type = some CellType.Sand) ∧
    (((Sandbox.run_updates 3 ((Sandbox.new 1 5).place 0 0 Cell.sand,
        Rng.fixed)).1.get 0 1).map Cell.get_type = some CellType.Empty) ∧
    (((Sandbox.run_updates 4 ((Sandbox.new 1 5).place 0 0 Cell.sand,
        Rng.fixed)).1.get 0 1).map Cell.get_type = some CellType.Sand) ∧
    (((Sandbox.run_updates 6 ((Sandbox.new 1 5).place 0 0 Cell.sand,
        Rng.fixed)).1.get 0 3).map Cell.get_type = some CellType.Sand) ∧
    (((Sandbox.run_updates 7 ((Sandbox.new 1 5).place 0 0 Cell.sand,
        Rng.fixed)).1.get 0 4).map Cell.get_type = some CellType.Sand) := by
  decide

/-- C4 counterexample: `update_cell` diffuses before moving.  With Water
carrying vertical velocity 2 at (0,0) and Sand at (1,0) on a 2-by-3 grid,
the code's pipeline moistens the sand (diffusion still sees the
pre-movement neighborhood) and then drops the water two cells; running the
spec's order — movement first, diffusion only after the cell settles —
leaves that sand dry, so the two pipelines produce different grids. -/
theorem claim_C4_counterexample :
    let s := { ((Sandbox.new 2 3).place 0 0
        { Cell.water with vy := 2 }).place 1 0 Cell.sand with
        update_counter := 1 }
    ((s.update_cell 0 0 Rng.fixed).1.get 1 0).map Cell.moisture ≠
      ((s.update_cell_spec_order 0 0 Rng.fixed).1.get 1 0).map
        Cell.moisture := by
  decide

/-- C4 (amended): within one tick each processed (present, non-empty,
not-yet-stamped) cell is piped through property diffusion first and then
movement; the engine has no reaction phase. -/
theorem claim_C4_pipeline_order (s : Sandbox) (x y : Int) (r : Rng)
    (c : Cell) (hg : s.get x y = some c) (he : c.is_empty = false)
    (hl : c.last_updated ≠ s.update_counter) :
    s.update_cell x y r =
      (((s.update_property x y CellProperty.Moisture r).1.update_movement x y
          (s.update_property x y CellProperty.Moisture r).2.1).1,
       ((s.update_property x y CellProperty.Moisture r).1.update_movement x y
          (s.update_property x y CellProperty.Moisture r).2.1).2.2,
       (s.update_property x y CellProperty.Moisture r).2.2) := by
  unfold Sandbox.update_cell
  rw [hg]
  dsimp only
  rw [if_neg]
  simp [he, hl]

/-- C4 witness: the amended pipeline equation instantiated on the concrete
water-over-sand scenario. -/
theorem claim_C4_pipeline_order_witness :
    let s := { ((Sandbox.new 2 3).place 0 0
        { Cell.water with vy := 2 }).place 1 0 Cell.sand with
        update_counter := 1 }
    s.update_cell 0 0 Rng.fixed =
      (((s.update_property 0 0 CellProperty.Moisture Rng.fixed).1.update_movement
          0 0 (s.update_property 0 0 CellProperty.Moisture Rng.fixed).2.1).1,
       ((s.update_property 0 0 CellProperty.Moisture Rng.fixed).1.update_movement
          0 0 (s.update_property 0 0 CellProperty.Moisture Rng.fixed).2.1).2.2,
       (s.update_property 0 0 CellProperty.Moisture Rng.fixed).2.2) := by
  exact claim_C4_pipeline_order _ 0 0 Rng.fixed
    { Cell.water with vy := 2 } (by decide) (by decide) (by decide)

/-- C10: `update` advances the `u8` tick counter by one modulo 256 (so each
counter value recurs every 256 calls), and during the scan any cell whose
`last_updated` stamp equals the current (wrapped) counter is skipped whole:
`update_cell` leaves the state untouched, with no movement and no
diffusion. -/
theorem claim_C10_wrap_skip :
    (∀ (s : Sandbox) (r : Rng),
      (s.update r).1.update_counter = (s.update_counter + 1) % 256) ∧
    (∀ (s : Sandbox) (x y : Int) (r : Rng) (c : Cell),
      s.get x y = some c → c.last_updated = s.update_counter →
      s.update_cell x y r = (s, r, 0)) := by
  constructor
  · intro s r
    exact (frame_updateD s r).2.2.1
  · intro s x y r c hg hlu
    unfold Sandbox.update_cell
    rw [hg]
    dsimp only
    rw [if_pos]
    simp [hlu]

/-- C10 witness: a freshly placed Sand cell carries stamp 0; with the
counter at 0 (as it is again at the 256th tick) the cell is skipped
untouched, and stepping a counter-255 sandbox wraps the counter to 0. -/
theorem claim_C10_wrap_skip_witness :
    ((Sandbox.new 1 2).place 0 0 Cell.sand).update_cell 0 0 Rng.fixed =
      ((Sandbox.new 1 2).place 0 0 Cell.sand, Rng.fixed, 0) ∧
    (({ Sandbox.new 1 1 with update_counter := 255 }).update
        Rng.fixed).1.update_counter = 0 :=
  ⟨claim_C10_wrap_skip.2 ((Sandbox.new 1 2).place 0 0 Cell.sand) 0 0
      Rng.fixed Cell.sand (by decide) (by decide),
   (claim_C10_wrap_skip.1 { Sandbox.new 1 1 with update_counter := 255 }
      Rng.fixed).trans (by decide)⟩

/-- C9: for every cell and property, `diffuse_potential` is zero when the
current value is zero and otherwise the lesser of the outward diffusion rate
and the current value; `accept_potential` is zero when the value is at or
above capacity and otherwise the lesser of the inward accept rate and the
remaining headroom. -/
theorem claim_C9_potentials (c : Cell) (p : CellProperty) :
    c.property_diffuse_potential p =
      (if c.get_property p = 0 then 0
       else min (c.property_diffusion_rate p) (c.get_property p)) ∧
    c.property_accept_potential p =
      (if c.property_capacity p ≤ c.get_property p then 0
       else min (c.property_accept_rate p)
         (c.property_capacity p - c.get_property p)) := by
  constructor
  · cases p
    simp only [Cell.property_diffuse_potential]
    split_ifs with h1 h2
    · rfl
    · rw [min_eq_left (le_of_lt h2)]
    · have : c.moisture = c.get_property CellProperty.Moisture := rfl
      rw [this, min_eq_right (by linarith)]
  · simp only [Cell.property_accept_potential]
    by_cases h1 : c.property_capacity p - c.get_property p ≤ 0
    · rw [if_pos h1,
        if_pos (show c.property_capacity p ≤ c.get_property p by linarith)]
    · rw [if_neg h1,
        if_neg (show ¬ c.property_capacity p ≤ c.get_property p by linarith)]
      by_cases h2 : c.property_capacity p - c.get_property p > c.property_accept_rate p
      · rw [if_pos h2, min_eq_left (le_of_lt h2)]
      · rw [if_neg h2, min_eq_right (by linarith)]

/-- C9 witness: the potentials of a fresh water and a fresh sand cell. -/
theorem claim_C9_potentials_witness :
    Cell.water.property_diffuse_potential CellProperty.Moisture =
      (if Cell.water.get_property CellProperty.Moisture = 0 then 0
       else min (Cell.water.property_diffusion_rate CellProperty.Moisture)
         (Cell.water.get_property CellProperty.Moisture)) ∧
    Cell.sand.property_accept_potential CellProperty.Moisture =
      (if Cell.sand.property_capacity CellProperty.Moisture ≤
          Cell.sand.get_property CellProperty.Moisture then 0
       else min (Cell.sand.property_accept_rate CellProperty.Moisture)
         (Cell.sand.property_capacity CellProperty.Moisture -
          Cell.sand.get_property CellProperty.Moisture)) :=
  ⟨(claim_C9_potentials Cell.water CellProperty.Moisture).1,
   (claim_C9_potentials Cell.sand CellProperty.Moisture).2⟩

/-- C3 counterexample: a freshly constructed Water cell (`Cell::new`) starts
with moisture 1.0, strictly above its moisture capacity 0.0, so the claimed
bound `value ≤ capacity(kind)` fails already for `Cell::new(Water)`. -/
theorem claim_C3_counterexample :
    ¬ ((Cell.new CellType.Water).get_property CellProperty.Moisture ≤
       (Cell.new CellType.Water).property_capacity CellProperty.Moisture) := by
  decide

/-- C3 (amended): freshly constructed Empty and Sand cells respect
`0 ≤ value ≤ capacity`, while a fresh Water cell starts strictly above its
zero capacity; and a diffusion transfer never lowers the source below zero,
and never raises any cell above its capacity if it was at or below it. -/
theorem claim_C3_bounds :
    (0 ≤ (Cell.new CellType.Empty).get_property CellProperty.Moisture ∧
      (Cell.new CellType.Empty).get_property CellProperty.Moisture ≤
        (Cell.new CellType.Empty).property_capacity CellProperty.Moisture) ∧
    (0 ≤ (Cell.new CellType.Sand).get_property CellProperty.Moisture ∧
      (Cell.new CellType.Sand).get_property CellProperty.Moisture ≤
        (Cell.new CellType.Sand).property_capacity CellProperty.Moisture) ∧
    ((Cell.new CellType.Water).property_capacity CellProperty.Moisture <
      (Cell.new CellType.Water).get_property CellProperty.Moisture) ∧
    ∀ (s : Sandbox) (x y : Int) (cands : List (Int × Int)) (p : CellProperty),
      s.wf →
      (∀ c c', s.get x y = some c →
        (s.try_spread_property x y cands p).1.get x y = some c' →
        0 ≤ c.get_property p → 0 ≤ c'.get_property p) ∧
      (∀ u v c c', s.get u v = some c →
        (s.try_spread_property x y cands p).1.get u v = some c' →
        c.get_property p ≤ c.property_capacity p →
        c'.get_property p ≤ c'.property_capacity p) := by
  refine ⟨by decide, by decide, by decide, ?_⟩
  intro s x y cands p hw
  rcases try_spread_cases s x y cands p with heq |
    ⟨source, tc, target, hsrc, htgt, heq⟩
  · constructor
    · intro c c' h1 h2 h3
      rw [heq] at h2
      rw [h1] at h2
      rw [Option.some_inj.mp h2] at h3
      exact h3
    · intro u v c c' h1 h2 h3
      rw [heq] at h2
      rw [h1] at h2
      rw [← Option.some_inj.mp h2]
      exact h3
  · set t := min (source.property_diffuse_potential p)
      (target.property_accept_potential p) with ht
    set s1 := s.modifyCell tc.1 tc.2
      (fun tcell => tcell.set_property p (tcell.get_property p + t)) with hs1
    set s2 := s1.modifyCell x y
      (fun c => c.set_property p (c.get_property p - t)) with hs2
    have hw1 : s1.wf := wf_modifyCell s tc.1 tc.2 _ hw
    have hw2 : s2.wf := wf_modifyCell s1 x y _ hw1
    have hs1_tc : s1.get tc.1 tc.2 =
        some (target.set_property p (target.get_property p + t)) :=
      get_modifyCell_self s _ hw htgt
    have hd := check_depletion_cases s2 x y p
    by_cases htc : tc = (x, y)
    · -- the found candidate is the source slot itself
      have htc1 : tc.1 = x := by rw [htc]
      have htc2 : tc.2 = y := by rw [htc]
      rw [htc1, htc2] at hs1_tc hs1
      have hst : source = target := by
        rw [htc1, htc2] at htgt
        rw [hsrc] at htgt
        exact Option.some_inj.mp htgt
      have hs2_xy : s2.get x y =
          some ((target.set_property p (target.get_property p + t)).set_property p
            ((target.set_property p (target.get_property p + t)).get_property p - t)) :=
        get_modifyCell_self s1 _ hw1 hs1_tc
      have hval : ((target.set_property p (target.get_property p + t)).set_property p
          ((target.set_property p (target.get_property p + t)).get_property p - t)).get_property p =
          target.get_property p := by
        rw [set_property_get, set_property_get]
        ring
      have hcap : ((target.set_property p (target.get_property p + t)).set_property p
          ((target.set_property p (target.get_property p + t)).get_property p - t)).property_capacity p =
          target.property_capacity p := by
        rw [set_property_capacity, set_property_capacity]
      constructor
      · intro c c' h1 h2 h3
        have hcs : c = source := by rw [hsrc] at h1; exact (Option.some_inj.mp h1).symm
        rw [heq] at h2
        rcases hd with hdep | hdep
        · rw [hdep, hs2_xy] at h2
          rw [← Option.some_inj.mp h2, hval]
          rw [hcs, hst] at h3
          exact h3
        · rw [hdep] at h2
          rw [get_place_self s2 Cell.default hw2 hs2_xy] at h2
          rw [← Option.some_inj.mp h2, default_get_property]
      · intro u v c c' h1 h2 h3
        rw [heq] at h2
        by_cases hpos : (u, v) = (x, y)
        · have hu : u = x := by rw [Prod.mk.injEq] at hpos; exact hpos.1
          have hv : v = y := by rw [Prod.mk.injEq] at hpos; exact hpos.2
          rw [hu, hv] at h1 h2
          have hcs : c = target := by
            rw [htc1, htc2] at htgt
            rw [htgt] at h1
            exact (Option.some_inj.mp h1).symm
          rcases hd with hdep | hdep
          · rw [hdep, hs2_xy] at h2
            rw [← Option.some_inj.mp h2, hval, hcap]
            rw [hcs] at h3
            exact h3
          · rw [hdep] at h2
            rw [get_place_self s2 Cell.default hw2 hs2_xy] at h2
            rw [← Option.some_inj.mp h2, default_get_property]
            exact property_capacity_nonneg _ _
        · -- untouched slot
          have hgu : s2.get u v = s.get u v := by
            rw [hs2, get_modifyCell_ne s1 _ hpos, hs1,
              get_modifyCell_ne s _ hpos]
          rcases hd with hdep | hdep
          · rw [hdep, hgu, h1] at h2
            rw [← Option.some_inj.mp h2]
            exact h3
          · rw [hdep, get_place_ne s2 Cell.default hpos, hgu, h1] at h2
            rw [← Option.some_inj.mp h2]
            exact h3
    · -- the found candidate differs from the source slot
      have hxy_ne : ((x, y) : Int × Int) ≠ (tc.1, tc.2) := by
        intro hcon
        exact htc hcon.symm
      have hs1_xy : s1.get x y = s.get x y := get_modifyCell_ne s _ hxy_ne
      have hs2_xy : s2.get x y =
          some (source.set_property p (source.get_property p - t)) := by
        rw [hs2]
        exact get_modifyCell_self s1 _ hw1 (by rw [hs1_xy]; exact hsrc)
      have hsrc_lower : 0 ≤ source.get_property p →
          0 ≤ (source.set_property p (source.get_property p - t)).get_property p := by
        intro h3
        rw [set_property_get]
        have h4 : t ≤ source.property_diffuse_potential p := min_le_left _ _
        have h5 := diffuse_le_value source p h3
        linarith
      constructor
      · intro c c' h1 h2 h3
        have hcs : c = source := by rw [hsrc] at h1; exact (Option.some_inj.mp h1).symm
        rw [heq] at h2
        rcases hd with hdep | hdep
        · rw [hdep, hs2_xy] at h2
          rw [← Option.some_inj.mp h2]
          exact hsrc_lower (hcs ▸ h3)
        · rw [hdep] at h2
          rw [get_place_self s2 Cell.default hw2 hs2_xy] at h2
          rw [← Option.some_inj.mp h2, default_get_property]
      · intro u v c c' h1 h2 h3
        rw [heq] at h2
        by_cases hpos : (u, v) = (x, y)
        · have hu : u = x := by rw [Prod.mk.injEq] at hpos; exact hpos.1
          have hv : v = y := by rw [Prod.mk.injEq] at hpos; exact hpos.2
          rw [hu, hv] at h1 h2
          have hcs : c = source := by rw [hsrc] at h1; exact (Option.some_inj.mp h1).symm
          rcases hd with hdep | hdep
          · rw [hdep, hs2_xy] at h2
            rw [← Option.some_inj.mp h2, set_property_get, set_property_capacity]
            rw [hcs] at h3
            rcases le_or_lt 0 (source.get_property p) with hsv | hsv
            · have h4 : 0 ≤ t :=
                le_min (diffuse_nonneg source p hsv) (accept_potential_nonneg target p)
              linarith
            · have h4 : t = source.get_property p := by
                rw [ht, diffuse_eq_value_of_neg source p hsv]
                exact min_eq_left (le_of_lt
                  (lt_of_lt_of_le hsv (accept_potential_nonneg target p)))
              rw [h4]
              have := property_capacity_nonneg source p
              linarith
          · rw [hdep] at h2
            rw [get_place_self s2 Cell.default hw2 hs2_xy] at h2
            rw [← Option.some_inj.mp h2, default_get_property]
            exact property_capacity_nonneg _ _
        · by_cases hpt : (u, v) = (tc.1, tc.2)
          · have hu : u = tc.1 := by rw [Prod.mk.injEq] at hpt; exact hpt.1
            have hv : v = tc.2 := by rw [Prod.mk.injEq] at hpt; exact hpt.2
            rw [hu, hv] at h1 h2
            have hcs : c = target := by rw [htgt] at h1; exact (Option.some_inj.mp h1).symm
            have hs2_tc : s2.get tc.1 tc.2 =
                some (target.set_property p (target.get_property p + t)) := by
              rw [hs2, get_modifyCell_ne s1 _ (fun hcon => htc hcon)]
              exact hs1_tc
            have htc_ne : ((tc.1, tc.2) : Int × Int) ≠ (x, y) := by
              intro hcon
              exact htc hcon
            rcases hd with hdep | hdep
            · rw [hdep, hs2_tc] at h2
              rw [← Option.some_inj.mp h2, set_property_get, set_property_capacity]
              have h4 : t ≤ target.property_accept_potential p := min_le_right _ _
              have h5 := add_accept_le_cap target p (hcs ▸ h3)
              rw [hcs] at h3
              linarith
            · rw [hdep, get_place_ne s2 Cell.default htc_ne, hs2_tc] at h2
              rw [← Option.some_inj.mp h2, set_property_get, set_property_capacity]
              have h4 : t ≤ target.property_accept_potential p := min_le_right _ _
              have h5 := add_accept_le_cap target p (hcs ▸ h3)
              rw [hcs] at h3
              linarith
          · have hgu : s2.get u v = s.get u v := by
              rw [hs2, get_modifyCell_ne s1 _ hpos, hs1, get_modifyCell_ne s _ hpt]
            rcases hd with hdep | hdep
            · rw [hdep, hgu, h1] at h2
              rw [← Option.some_inj.mp h2]
              exact h3
            · rw [hdep, get_place_ne s2 Cell.default hpos, hgu, h1] at h2
              rw [← Option.some_inj.mp h2]
              exact h3

/-- C3 witness: on a 2-by-1 grid with Water at the origin and Sand beside
it, one diffusion step leaves the Water source at moisture 19/20, still
nonnegative. -/
theorem claim_C3_bounds_witness :
    0 ≤ (⟨CellType.Water, 19 / 20, 0, 0, 0⟩ : Cell).get_property
      CellProperty.Moisture :=
  ((claim_C3_bounds.2.2.2
      (((Sandbox.new 2 1).place 0 0 Cell.water).place 1 0 Cell.sand)
      0 0 [(1, 0)] CellProperty.Moisture
      (wf_place _ _ _ _ (wf_place _ _ _ _ (wf_new 2 1)))).1
    Cell.water ⟨CellType.Water, 19 / 20, 0, 0, 0⟩
    (by decide) (by decide) (by decide))

/-- C7: an in-range `place` followed by `get` at the same coordinate returns
the placed cell unchanged; an out-of-range `place` leaves the sandbox
unchanged. -/
theorem claim_C7_place_get (s : Sandbox) (x y : Int) (c : Cell) :
    (s.wf → (s.coords_to_index x y).isSome = true →
      (s.place x y c).get x y = some c) ∧
    (s.coords_to_index x y = none → s.place x y c = s) := by
  constructor
  · intro hw hin
    cases hc : s.coords_to_index x y with
    | none => rw [hc] at hin; simp at hin
    | some i =>
      have hlen : i < s.cells.length := coords_lt s hw hc
      unfold Sandbox.place
      rw [hc]
      unfold Sandbox.get
      rw [coords_cells_irrel, hc]
      simp only [Option.map, Option.some_inj]
      exact getD_set_self _ _ _ _ hlen
  · intro hc
    unfold Sandbox.place
    rw [hc]

/-- C7 witness: a concrete in-range round trip and a concrete out-of-range
no-op on a 2-by-2 grid. -/
theorem claim_C7_place_get_witness :
    ((Sandbox.new 2 2).place 0 1 Cell.sand).get 0 1 = some Cell.sand ∧
    (Sandbox.new 2 2).place (-1) 0 Cell.sand = Sandbox.new 2 2 :=
  ⟨(claim_C7_place_get (Sandbox.new 2 2) 0 1 Cell.sand).1 (wf_new 2 2) (by decide),
   (claim_C7_place_get (Sandbox.new 2 2) (-1) 0 Cell.sand).2 (by decide)⟩

/-- C5: the engine performs no reaction (it has no reaction phase at all),
so if no pure-source depletion occurs during an `update` call — the
instrumented depletion count of the tick is zero — the number of non-Empty
cells is unchanged: movement only swaps slot contents and diffusion only
moves property mass. -/
theorem claim_C5_mass_conservation (s : Sandbox) (r : Rng) (hw : s.wf)
    (hd : (s.updateD r).2.2 = 0) :
    (s.update r).1.countNonEmpty = s.countNonEmpty := by
  show (s.updateD r).1.countNonEmpty = s.countNonEmpty
  unfold Sandbox.updateD at hd ⊢
  dsimp only at hd ⊢
  have hw0 : ({ s with update_counter := (s.update_counter + 1) % 256 } :
      Sandbox).wf := hw
  obtain ⟨hm, hc⟩ := count_foldl (Sandbox.update_row s.width)
    (frame_update_row s.width) (step_props_update_row s.width)
    (List.range s.height).reverse
    ({ s with update_counter := (s.update_counter + 1) % 256 }, r, 0) hw0
  exact hc hd

/-- C5 witness: one tick of a lone Sand cell on a 1-by-2 grid triggers no
depletion and keeps the non-Empty count. -/
theorem claim_C5_mass_conservation_witness :
    (((Sandbox.new 1 2).place 0 0 Cell.sand).updateD Rng.fixed).2.2 = 0 ∧
    (((Sandbox.new 1 2).place 0 0 Cell.sand).update
        Rng.fixed).1.countNonEmpty =
      ((Sandbox.new 1 2).place 0 0 Cell.sand).countNonEmpty :=
  ⟨by decide,
   claim_C5_mass_conservation _ Rng.fixed
     (wf_place _ _ _ _ (wf_new 1 2)) (by decide)⟩

/-- C6: a cell can displace into a slot exactly when the slot is in range
and holds a strictly less dense cell; out-of-range targets are never
displaceable; and a realized swap exchanges the two slots' contents, stamps
both with the current counter, and leaves every other slot unchanged. -/
theorem claim_C6_displacement :
    (∀ (s : Sandbox) (cell : Cell) (tpos : Int × Int),
      (s.can_displace cell tpos = true ↔
        ∃ tcell, s.get tpos.1 tpos.2 = some tcell ∧
          tcell.density < cell.density) ∧
      (s.coords_to_index tpos.1 tpos.2 = none →
        s.can_displace cell tpos = false)) ∧
    (∀ (s : Sandbox) (a b : Int × Int) (ca cb : Cell), s.wf → a ≠ b →
      s.get a.1 a.2 = some ca → s.get b.1 b.2 = some cb →
      (s.swap_cells a b).get a.1 a.2 =
        some { cb with last_updated := s.update_counter } ∧
      (s.swap_cells a b).get b.1 b.2 =
        some { ca with last_updated := s.update_counter } ∧
      ∀ u v, (u, v) ≠ a → (u, v) ≠ b →
        (s.swap_cells a b).get u v = s.get u v) := by
  constructor
  · intro s cell tpos
    constructor
    · unfold Sandbox.can_displace
      cases hg : s.get tpos.1 tpos.2 with
      | none =>
        constructor
        · intro h
          simp at h
        · rintro ⟨tcell, ht, _⟩
          simp at ht
      | some tcell =>
        constructor
        · intro h
          exact ⟨tcell, rfl, of_decide_eq_true h⟩
        · rintro ⟨tcell', ht, hlt⟩
          have : tcell' = tcell := (Option.some_inj.mp ht).symm
          rw [this] at hlt
          exact decide_eq_true hlt
    · intro hc
      unfold Sandbox.can_displace Sandbox.get
      rw [hc]
      rfl
  · intro s a b ca cb hw hab hga hgb
    unfold Sandbox.get at hga hgb
    cases hi : s.coords_to_index a.1 a.2 with
    | none => rw [hi] at hga; simp at hga
    | some i =>
      cases hj : s.coords_to_index b.1 b.2 with
      | none => rw [hj] at hgb; simp at hgb
      | some j =>
        rw [hi] at hga
        rw [hj] at hgb
        simp only [Option.map] at hga hgb
        have hca : s.cells.getD i Cell.default = ca := Option.some_inj.mp hga
        have hcb : s.cells.getD j Cell.default = cb := Option.some_inj.mp hgb
        have hij : i ≠ j := by
          intro hcon
          subst hcon
          obtain ⟨h1, h2⟩ := coords_inj s hi hj
          exact hab (Prod.ext h1 h2)
        have hil : i < s.cells.length := coords_lt s hw hi
        have hjl : j < s.cells.length := coords_lt s hw hj
        have hL1len : (s.cells.set i { ca with last_updated := s.update_counter }).length =
            s.cells.length := List.length_set ..
        have hL2len : ((s.cells.set i { ca with last_updated := s.update_counter }).set j
            { cb with last_updated := s.update_counter }).length = s.cells.length := by
          rw [List.length_set, hL1len]
        have hgi : ((s.cells.set i { ca with last_updated := s.update_counter }).set j
            { cb with last_updated := s.update_counter }).getD i Cell.default =
            { ca with last_updated := s.update_counter } := by
          rw [getD_set_ne _ _ _ _ _ (Ne.symm hij), getD_set_self _ _ _ _ hil]
        have hgj : ((s.cells.set i { ca with last_updated := s.update_counter }).set j
            { cb with last_updated := s.update_counter }).getD j Cell.default =
            { cb with last_updated := s.update_counter } :=
          getD_set_self _ _ _ _ (by rw [hL1len]; exact hjl)
        have hswap : s.swap_cells a b =
            { s with cells :=
                ((((s.cells.set i { ca with last_updated := s.update_counter }).set j
                    { cb with last_updated := s.update_counter }).set i
                  { cb with last_updated := s.update_counter }).set j
                  { ca with last_updated := s.update_counter }) } := by
          unfold Sandbox.swap_cells
          rw [hi, hj]
          dsimp only
          rw [hca, getD_set_ne _ _ _ _ _ hij, hcb, hgi, hgj]
        refine ⟨?_, ?_, ?_⟩
        · rw [hswap]
          unfold Sandbox.get
          rw [coords_cells_irrel, hi]
          simp only [Option.map, Option.some_inj]
          rw [getD_set_ne _ _ _ _ _ (Ne.symm hij),
            getD_set_self _ _ _ _ (by rw [hL2len]; exact hil)]
        · rw [hswap]
          unfold Sandbox.get
          rw [coords_cells_irrel, hj]
          simp only [Option.map, Option.some_inj]
          exact getD_set_self _ _ _ _
            (by rw [List.length_set, hL2len]; exact hjl)
        · intro u v hua hub
          rw [hswap]
          unfold Sandbox.get
          rw [coords_cells_irrel]
          cases hk : s.coords_to_index u v with
          | none => rfl
          | some k =>
            simp only [Option.map, Option.some_inj]
            have hki : k ≠ i := by
              intro hcon
              subst hcon
              obtain ⟨h1, h2⟩ := coords_inj s hk hi
              exact hua (by rw [h1, h2])
            have hkj : k ≠ j := by
              intro hcon
              subst hcon
              obtain ⟨h1, h2⟩ := coords_inj s hk hj
              exact hub (by rw [h1, h2])
            rw [getD_set_ne _ _ _ _ _ (Ne.symm hkj),
              getD_set_ne _ _ _ _ _ (Ne.symm hki),
              getD_set_ne _ _ _ _ _ (Ne.symm hkj),
              getD_set_ne _ _ _ _ _ (Ne.symm hki)]

/-- C6 witness: on a 2-by-1 grid, Sand at the origin can displace the Water
beside it, and the realized swap exchanges and stamps both slots. -/
theorem claim_C6_displacement_witness :
    ((((Sandbox.new 2 1).place 0 0 Cell.sand).place 1 0
        Cell.water).can_displace Cell.sand (1, 0) = true) ∧
    ((((Sandbox.new 2 1).place 0 0 Cell.sand).place 1 0
        Cell.water).swap_cells (0, 0) (1, 0)).get 0 0 =
      some { Cell.water with last_updated := 0 } :=
  ⟨(claim_C6_displacement.1
      (((Sandbox.new 2 1).place 0 0 Cell.sand).place 1 0 Cell.water)
      Cell.sand (1, 0)).1.mpr ⟨Cell.water, by decide, by decide⟩,
   (claim_C6_displacement.2
      (((Sandbox.new 2 1).place 0 0 Cell.sand).place 1 0 Cell.water)
      (0, 0) (1, 0) Cell.sand Cell.water
      (wf_place _ _ _ _ (wf_place _ _ _ _ (wf_new 2 1)))
      (by decide) (by decide) (by decide)).1⟩

/-- C8: on a fresh sandbox of any dimensions, `get` returns the default
(`Empty`) cell at every in-range coordinate and `none` at every
out-of-range coordinate, negative ones included. -/
theorem claim_C8_new_get (w h : Nat) (x y : Int) :
    ((0 ≤ x ∧ 0 ≤ y ∧ x < (w : Int) ∧ y < (h : Int)) →
      (Sandbox.new w h).get x y = some Cell.default ∧
        Cell.default.is_empty = true) ∧
    (¬(0 ≤ x ∧ 0 ≤ y ∧ x < (w : Int) ∧ y < (h : Int)) →
      (Sandbox.new w h).get x y = none) := by
  constructor
  · rintro ⟨hx0, hy0, hxw, hyh⟩
    refine ⟨?_, rfl⟩
    have hc : (Sandbox.new w h).coords_to_index x y =
        some (y * (w : Int) + x).toNat := by
      unfold Sandbox.coords_to_index Sandbox.new
      rw [if_neg (by push_neg; exact ⟨hx0, hy0, hxw, hyh⟩)]
    have hlen : (y * (w : Int) + x).toNat < (Sandbox.new w h).cells.length :=
      coords_lt _ (wf_new w h) hc
    unfold Sandbox.get
    rw [hc]
    simp only [Option.map, Option.some_inj, Sandbox.new]
    simp only [Sandbox.new, List.length_replicate] at hlen
    exact getD_replicate _ _ _ _ hlen
  · intro hout
    have hcond : x < 0 ∨ y < 0 ∨ (w : Int) ≤ x ∨ (h : Int) ≤ y := by
      by_contra hcon
      push_neg at hcon
      exact hout ⟨hcon.1, hcon.2.1, hcon.2.2.1, hcon.2.2.2⟩
    unfold Sandbox.get Sandbox.coords_to_index Sandbox.new
    rw [if_pos hcond]
    rfl

/-- C8 witness: concrete reads on a 2-by-3 grid, including a negative
coordinate. -/
theorem claim_C8_new_get_witness :
    (Sandbox.new 2 3).get 1 2 = some Cell.default ∧
    (Sandbox.new 2 3).get 2 0 = none ∧
    (Sandbox.new 2 3).get (-1) (-1) = none :=
  ⟨((claim_C8_new_get 2 3 1 2).1 (by decide)).1,
   (claim_C8_new_get 2 3 2 0).2 (by decide),
   (claim_C8_new_get 2 3 (-1) (-1)).2 (by decide)⟩

end LemonSand
